import Mathlib

/-!
sacloud-prometheus-sd: target resolution and label synthesis.

A shallow embedding of `main.go`: the ignore-tag loop and the file handling of
`generate`, and `buildMetadata`.  Go strings are `String`, Go `int` / `int64`
values are `Int` (no arithmetic is performed on them, only comparison and
decimal formatting), a Go map `model.LabelSet` is an association list with
unique keys, and a run-time panic is the `Except.error` branch.
Pointers (`*sacloud.Server`, `*InterfaceView`, `*ZoneInfo`) are taken to be
non-nil, as the inventory API returns them.
-/

set_option autoImplicit false

namespace SacloudSD

/-! ## Data model -/

/-- Go `error` values. -/
abbrev Error := String

/-- The two address fields of `sacloud.InterfaceView` read by `buildMetadata`
through the accessors `GetIPAddress` and `GetUserIPAddress`. -/
structure InterfaceView where
  IPAddress : String
  UserIPAddress : String
deriving DecidableEq

/-- The field of `sacloud.ZoneInfo` read by `buildMetadata`. -/
structure ZoneInfo where
  Name : String
deriving DecidableEq

/-- The fields of `sacloud.Server` read by `generate` and `buildMetadata`. -/
structure Server where
  ID : Int
  Name : String
  HostName : String
  Zone : ZoneInfo
  Interfaces : List InterfaceView
  Tags : List String
deriving DecidableEq

/-- `Target` (main.go, lines 39-45). -/
structure Target where
  Service : String
  Tags : List String
  IgnoreTags : List String
  Ports : List Int
  InterfaceIndex : Int
deriving DecidableEq

/-- `Config` (main.go, lines 31-38). -/
structure Config where
  Token : String
  Secret : String
  Zone : String
  BaseTags : List String
  Targets : List Target
  HostNameType : String
deriving DecidableEq

/-- `model.LabelSet`, a Go `map[LabelName]LabelValue`, as an association list
whose keys are kept unique by `LabelSet.set`. -/
abbrev LabelSet := List (String × String)

/-- Map assignment `ls[k] = v`: overwrite the entry of `k` or add one. -/
def LabelSet.set : LabelSet → String → String → LabelSet
  | [], k, v => [(k, v)]
  | (k', v') :: rest, k, v =>
    if k' = k then (k, v) :: rest else (k', v') :: LabelSet.set rest k v

/-- Map lookup with presence flag, `v, ok := ls[k]`. -/
def LabelSet.get : LabelSet → String → Option String
  | [], _ => none
  | (k', v') :: rest, k => if k' = k then some v' else LabelSet.get rest k

/-- The keys of a label set. -/
def LabelSet.keys (ls : LabelSet) : List String := ls.map Prod.fst

/-- `targetgroup.Group`. -/
structure Group where
  Targets : List LabelSet
  Labels : LabelSet
  Source : String
deriving DecidableEq

/-! ## Constants (main.go, lines 22-29, and prometheus/common/model) -/

/-- `model.MetaLabelPrefix`. -/
def MetaLabelPrefix : String := "__meta_"
/-- `model.AddressLabel`. -/
def AddressLabel : String := "__address__"
def sacloudLabel : String := MetaLabelPrefix ++ "sacloud_"
def sacloudLabelZone : String := sacloudLabel ++ "zone"
def sacloudLabelResourceID : String := sacloudLabel ++ "resource_id"
def sacloudLabelName : String := sacloudLabel ++ "name"
def sacloudLabelIP : String := sacloudLabel ++ "ip"
def sacloudLabelTag : String := sacloudLabel ++ "instances_tags"

/-! ## Library functions used by the source -/

/-- `strconv.FormatInt(i, 10)` and the `%d` verb of `fmt.Sprintf`: the decimal
digits of the absolute value, with a leading minus sign for a negative number. -/
def FormatInt : Int → String
  | Int.ofNat m => Nat.repr m
  | Int.negSucc m => "-" ++ Nat.repr (m + 1)

/-- The characters the regular expression `[^a-zA-Z0-9_]` does not match. -/
def validLabelChar (c : Char) : Bool :=
  ('a' ≤ c && c ≤ 'z') || ('A' ≤ c && c ≤ 'Z') || ('0' ≤ c && c ≤ '9') || c = '_'

/-- Modelled from the spec: `strutil.SanitizeLabelName` belongs to the external
Prometheus library and is not part of this repository's sources; it replaces
every character outside `[A-Za-z0-9_]` with `_`. -/
def SanitizeLabelName (name : String) : String :=
  ⟨name.data.map (fun c => if validLabelChar c then c else '_')⟩

/-- `strings.Join(elems, sep)`. -/
def Join : List String → String → String
  | [], _ => ""
  | [e], _ => e
  | e :: rest, sep => e ++ sep ++ Join rest sep

/-- Modelled from the spec: `server.HasTag(tag)` belongs to the external
libsacloud library; the server carries the tag when one of its tags equals it
(exact string match, case-sensitive). -/
def HasTag : List String → String → Bool
  | [], _ => false
  | t :: rest, tag => if t = tag then true else HasTag rest tag

/-- Slice indexing `xs[i]` with a Go `int` index: panics when out of range. -/
def index {α : Type} (xs : List α) (i : Int) : Except String α :=
  if i < 0 then Except.error "index out of range"
  else match xs.get? i.toNat with
    | some x => Except.ok x
    | none => Except.error "index out of range"

/-! ## buildMetadata (main.go, lines 194-256) -/

/-- The loop of lines 219-222: every port overwrites the one `__address__`
entry of `targetLabels`. -/
def portLoop (IPAddress : String) : List Int → LabelSet → LabelSet
  | [], targetLabels => targetLabels
  | port :: rest, targetLabels =>
    portLoop IPAddress rest
      (LabelSet.set targetLabels AddressLabel (IPAddress ++ ":" ++ FormatInt port))

/-- The loop of lines 235-238 collecting the sanitized tags. -/
def sanitizeLoop : List String → List String → List String
  | [], sanitizedTags => sanitizedTags
  | t :: rest, sanitizedTags => sanitizeLoop rest (sanitizedTags ++ [SanitizeLabelName t])

/-- Lines 226-248: the label set of the group of `server`, given the resolved
address. -/
def buildLabels (server : Server) (target : Target) (config : Config)
    (IPAddress : String) : LabelSet :=
  let labels : LabelSet := []
  let labels := LabelSet.set labels sacloudLabelZone server.Zone.Name
  let labels := LabelSet.set labels sacloudLabelResourceID (FormatInt server.ID)
  let labels := LabelSet.set labels sacloudLabelName server.Name
  let labels := LabelSet.set labels sacloudLabelIP IPAddress
  let labels :=
    if server.Tags.length > 0 then
      let sanitizedTags := sanitizeLoop server.Tags []
      let joinedTags := "," ++ Join sanitizedTags "," ++ ","
      LabelSet.set labels sacloudLabelTag joinedTags
    else labels
  let labels :=
    if config.HostNameType = "modify_disk" then
      LabelSet.set labels "hostname" server.HostName
    else
      LabelSet.set labels "hostname" server.Name
  LabelSet.set labels "service" target.Service

/-- Lines 202-216: the address of `server` under `target`; `Except.error` is a
panic of an index expression, `none` is `continue`. -/
def resolveAddress (server : Server) (target : Target) : Except String (Option String) :=
  if (server.Interfaces.length : Int) ≤ target.InterfaceIndex then Except.ok none
  else
    match index server.Interfaces target.InterfaceIndex with
    | Except.error p => Except.error p
    | Except.ok iface =>
      let IPAddress := iface.UserIPAddress
      match (if IPAddress = "" then
              match index server.Interfaces 0 with
              | Except.error p => Except.error p
              | Except.ok iface0 => Except.ok iface0.IPAddress
            else Except.ok IPAddress) with
      | Except.error p => Except.error p
      | Except.ok IPAddress =>
        match (if IPAddress = "" then
                match index server.Interfaces 0 with
                | Except.error p => Except.error p
                | Except.ok iface0 => Except.ok iface0.UserIPAddress
              else Except.ok IPAddress) with
        | Except.error p => Except.error p
        | Except.ok IPAddress =>
          if IPAddress = "" then Except.ok none else Except.ok (some IPAddress)

/-- One iteration of the loop over servers (lines 198-252): `none` is
`continue`, `some tg` is the group appended to `targetGroups`. -/
def buildMetadataBody (server : Server) (target : Target) (config : Config) :
    Except String (Option Group) :=
  match resolveAddress server target with
  | Except.error p => Except.error p
  | Except.ok none => Except.ok none
  | Except.ok (some IPAddress) =>
    let targetLabels := portLoop IPAddress target.Ports []
    Except.ok (some { Targets := [] ++ [targetLabels],
                      Labels := buildLabels server target config IPAddress,
                      Source := "sacloud" })

/-- The loop over servers of `buildMetadata`, with `targetGroups` as accumulator. -/
def buildMetadataLoop (target : Target) (config : Config) :
    List Server → List Group → Except String (List Group)
  | [], targetGroups => Except.ok targetGroups
  | server :: rest, targetGroups =>
    match buildMetadataBody server target config with
    | Except.error p => Except.error p
    | Except.ok none => buildMetadataLoop target config rest targetGroups
    | Except.ok (some tg) => buildMetadataLoop target config rest (targetGroups ++ [tg])

/-- `buildMetadata`: the groups and the Go error value (always `nil`), or a
run-time panic. -/
def buildMetadata (servers : List Server) (target : Target) (config : Config) :
    Except String (List Group × Option Error) :=
  match buildMetadataLoop target config servers [] with
  | Except.error p => Except.error p
  | Except.ok targetGroups => Except.ok (targetGroups, none)

/-! ## generate (main.go, lines 98-159) -/

/-- Lines 120-126: the scan of `target.IgnoreTags` that sets `isIgnored` and
breaks at the first tag the server has. -/
def isIgnoredLoop (server : Server) : List String → Bool
  | [] => false
  | ignore :: rest =>
    if HasTag server.Tags ignore then true else isIgnoredLoop server rest

/-- Lines 118-130: the loop over `rawServers`, with `servers` as accumulator. -/
def ignoreLoop (target : Target) : List Server → List Server → List Server
  | [], servers => servers
  | server :: rest, servers =>
    if !(isIgnoredLoop server target.IgnoreTags) then
      ignoreLoop target rest (servers ++ [server])
    else
      ignoreLoop target rest servers

/-- The value `targetgroup.Group.MarshalYAML` builds: the `__address__` of
every target and the labels. -/
structure MarshalledGroup where
  Targets : List String
  Labels : LabelSet
deriving DecidableEq

/-- `targetgroup.Group.MarshalYAML`; its error is always `nil`. -/
def Group.MarshalYAML (tg : Group) : MarshalledGroup × Option Error :=
  ({ Targets := tg.Targets.map (fun t => (LabelSet.get t AddressLabel).getD ""),
     Labels := tg.Labels }, none)

/-- What the operating system, the inventory API and the YAML encoder answer
during one call of `generate`. -/
structure Env where
  /-- `os.MkdirAll`: the error, if any. -/
  mkdirAll : Option Error
  /-- `op.Find` for the rule at the given position, zone and tag query. -/
  find : Nat → String → List String → Except Error (List Server)
  /-- `os.Create`: the error, if any; on success the file is empty. -/
  create : Option Error
  /-- `yaml.Marshal`. -/
  yamlMarshal : List MarshalledGroup → Except Error String
  /-- `fmt.Fprint` of the given text: `none` when all of it is written,
  `some (n, err)` when it fails after `n` characters. -/
  write : String → Option (Nat × Error)
  /-- `file.Close`: the error, if any. -/
  close : Option Error

/-- `listServers` (lines 179-192): the servers found or the error of `op.Find`. -/
def listServers (env : Env) (n : Nat) (zone : String) (tags : List String) :
    Except Error (List Server) :=
  match env.find n zone tags with
  | Except.error err => Except.error err
  | Except.ok res => Except.ok res

/-- How a piece of `generate` ends: it goes on with a value, returns an error,
or panics. -/
inductive Step (α : Type) where
  | next (a : α)
  | ret (err : Error)
  | panicked (msg : String)

/-- Lines 137-143: marshal every group and append it to `list`. -/
def marshalLoop : List Group → List MarshalledGroup → Step (List MarshalledGroup)
  | [], list => Step.next list
  | targetGroup :: rest, list =>
    match Group.MarshalYAML targetGroup with
    | (_, some err) => Step.ret err
    | (g, none) => marshalLoop rest (list ++ [g])

/-- Lines 106-143: the body of the loop over `config.Targets` for the rule at
position `n`. -/
def generateTarget (env : Env) (config : Config) (n : Nat) (target : Target)
    (list : List MarshalledGroup) : Step (List MarshalledGroup) :=
  let tags : List String := []
  let tags := tags ++ config.BaseTags
  let tags := tags ++ target.Tags
  match listServers env n config.Zone tags with
  | Except.error err => Step.ret err
  | Except.ok rawServers =>
    let servers := ignoreLoop target rawServers []
    match buildMetadata servers target config with
    | Except.error msg => Step.panicked msg
    | Except.ok (_, some err) => Step.ret err
    | Except.ok (targetGroups, none) => marshalLoop targetGroups list

/-- Lines 105-144: the loop over `config.Targets`. -/
def targetsLoop (env : Env) (config : Config) :
    Nat → List Target → List MarshalledGroup → Step (List MarshalledGroup)
  | _, [], list => Step.next list
  | n, target :: rest, list =>
    match generateTarget env config n target list with
    | Step.ret err => Step.ret err
    | Step.panicked msg => Step.panicked msg
    | Step.next list => targetsLoop env config (n + 1) rest list

/-- Line 149-150: `string(yb)`; the error of `yaml.Marshal` is overwritten
unread and `yb` is empty when it fails. -/
def yamlBytes (env : Env) (list : List MarshalledGroup) : String :=
  match env.yamlMarshal list with
  | Except.ok yb => yb
  | Except.error _ => ""

/-- How a call of `generate` ends. -/
inductive Outcome where
  | returned (err : Option Error)
  | panicked (msg : String)
deriving DecidableEq

/-- `generate`, on the content of the output file (`none`: no such file):
the content after the call and how the call ended. -/
def generate (env : Env) (config : Config) (file : Option String) :
    Option String × Outcome :=
  match env.mkdirAll with
  | some err => (file, Outcome.returned (some err))
  | none =>
    match targetsLoop env config 0 config.Targets [] with
    | Step.ret err => (file, Outcome.returned (some err))
    | Step.panicked msg => (file, Outcome.panicked msg)
    | Step.next list =>
      match env.create with
      | some err => (file, Outcome.returned (some err))
      | none =>
        let yb := yamlBytes env list
        match env.write yb with
        | some (n, err) => (some ⟨yb.data.take n⟩, Outcome.returned (some err))
        | none =>
          match env.close with
          | some err => (some yb, Outcome.returned (some err))
          | none => (some yb, Outcome.returned none)

def srvA : Server :=
  { ID := 1, Name := "a", HostName := "a-host", Zone := ⟨"is1a"⟩,
    Interfaces := [⟨"10.0.0.1", ""⟩], Tags := ["web", "prod-1"] }

def tgtA : Target :=
  { Service := "web", Tags := ["prod"], IgnoreTags := ["staging"], Ports := [9100, 9200],
    InterfaceIndex := 0 }

def cfgA : Config :=
  { Token := "", Secret := "", Zone := "is1a", BaseTags := [], Targets := [tgtA],
    HostNameType := "server_name" }

/-! ## Notions of the specification -/

/-- The three fallback addresses of a server under a rule, in the order they
are tried; empty when the rule's interface index is not an index of the
server's interfaces. -/
def candidates (server : Server) (target : Target) : List String :=
  if 0 ≤ target.InterfaceIndex then
    match server.Interfaces.get? target.InterfaceIndex.toNat, server.Interfaces.head? with
    | some iface, some iface0 =>
      [iface.UserIPAddress, iface0.IPAddress, iface0.UserIPAddress]
    | _, _ => []
  else []

/-- The first non-empty string of a list. -/
def firstNonEmpty (l : List String) : Option String := l.find? (fun a => a ≠ "")

/-- A server is resolvable under a rule when it has more interfaces than the
rule's interface index and one of its fallback addresses is not empty. -/
def resolvable (target : Target) (server : Server) : Bool :=
  decide (target.InterfaceIndex < (server.Interfaces.length : Int)) &&
    (candidates server target).any (fun a => a ≠ "")

/-- The group of a server with resolved address `A`. -/
def groupOf (server : Server) (target : Target) (config : Config) (A : String) : Group :=
  { Targets := [portLoop A target.Ports []],
    Labels := buildLabels server target config A,
    Source := "sacloud" }

/-! ## Further notions of the specification and inputs of the examples -/

/-- The entry of the tag label: none for a server without tags. -/
def tagEntry (server : Server) : LabelSet :=
  if server.Tags = [] then []
  else [("__meta_sacloud_instances_tags",
         "," ++ Join (server.Tags.map SanitizeLabelName) "," ++ ",")]

/-- The value of the `hostname` label. -/
def hostnameValue (server : Server) (config : Config) : String :=
  if config.HostNameType = "modify_disk" then server.HostName else server.Name

/-- The resolved address of a resolvable server. -/
def resolvedAddress (server : Server) (target : Target) : String :=
  (firstNonEmpty (candidates server target)).getD ""

def srvP : Server :=
  { ID := 1, Name := "a", HostName := "a-host", Zone := ⟨"is1a"⟩,
    Interfaces := [⟨"10.0.0.1", ""⟩], Tags := ["prod"] }

def srvB : Server :=
  { ID := 2, Name := "b", HostName := "b-host", Zone := ⟨"is1a"⟩,
    Interfaces := [⟨"10.0.0.2", ""⟩], Tags := ["prod", "staging"] }

def tgtOverlap : Target :=
  { Service := "web", Tags := ["prod"], IgnoreTags := ["prod"], Ports := [9100],
    InterfaceIndex := 0 }

def tgtWeb : Target :=
  { Service := "web", Tags := ["prod"], IgnoreTags := ["staging"], Ports := [9100],
    InterfaceIndex := 0 }

def groupP : Group :=
  { Targets := [[("__address__", "10.0.0.1:9100")]],
    Labels := [("__meta_sacloud_zone", "is1a"), ("__meta_sacloud_resource_id", "1"),
      ("__meta_sacloud_name", "a"), ("__meta_sacloud_ip", "10.0.0.1"),
      ("__meta_sacloud_instances_tags", ",prod,"), ("hostname", "a"), ("service", "web")],
    Source := "sacloud" }

def srvFallback : Server :=
  { ID := 7, Name := "f", HostName := "f-host", Zone := ⟨"is1a"⟩,
    Interfaces := [⟨"1.2.3.4", ""⟩, ⟨"5.6.7.8", "192.168.0.9"⟩], Tags := [] }

def groupFallback : Group :=
  { Targets := [[("__address__", "1.2.3.4:9100")]],
    Labels := [("__meta_sacloud_zone", "is1a"), ("__meta_sacloud_resource_id", "7"),
      ("__meta_sacloud_name", "f"), ("__meta_sacloud_ip", "1.2.3.4"),
      ("hostname", "f"), ("service", "web")],
    Source := "sacloud" }

def srvNoAddr : Server :=
  { ID := 3, Name := "c", HostName := "c-host", Zone := ⟨"is1a"⟩,
    Interfaces := [⟨"", ""⟩], Tags := [] }

def srvNoIface : Server :=
  { ID := 4, Name := "d", HostName := "d-host", Zone := ⟨"is1a"⟩,
    Interfaces := [], Tags := [] }

def tgtTwoPorts : Target :=
  { Service := "web", Tags := ["prod"], IgnoreTags := [], Ports := [9100, 9200],
    InterfaceIndex := 0 }

def groupLastPort : Group :=
  { Targets := [[("__address__", "10.0.0.1:9200")]],
    Labels := [("__meta_sacloud_zone", "is1a"), ("__meta_sacloud_resource_id", "1"),
      ("__meta_sacloud_name", "a"), ("__meta_sacloud_ip", "10.0.0.1"),
      ("__meta_sacloud_instances_tags", ",prod,"), ("hostname", "a"), ("service", "web")],
    Source := "sacloud" }

/-- The string `"," + s1 + "," + ... + "," + sn + ","`. -/
def commaWrapped : List String → String
  | [] => ","
  | s :: rest => "," ++ s ++ commaWrapped rest

def groupA : Group :=
  { Targets := [[("__address__", "10.0.0.1:9200")]],
    Labels := [("__meta_sacloud_zone", "is1a"), ("__meta_sacloud_resource_id", "1"),
      ("__meta_sacloud_name", "a"), ("__meta_sacloud_ip", "10.0.0.1"),
      ("__meta_sacloud_instances_tags", ",web,prod_1,"), ("hostname", "a"), ("service", "web")],
    Source := "sacloud" }

def tgtNeg : Target :=
  { Service := "web", Tags := ["prod"], IgnoreTags := [], Ports := [9100],
    InterfaceIndex := -1 }

def cfgDisk : Config :=
  { Token := "", Secret := "", Zone := "is1a", BaseTags := [], Targets := [tgtA],
    HostNameType := "modify_disk" }

def cfgEmptyMode : Config :=
  { Token := "", Secret := "", Zone := "is1a", BaseTags := [], Targets := [tgtA],
    HostNameType := "" }

def groupADisk : Group :=
  { Targets := [[("__address__", "10.0.0.1:9200")]],
    Labels := [("__meta_sacloud_zone", "is1a"), ("__meta_sacloud_resource_id", "1"),
      ("__meta_sacloud_name", "a"), ("__meta_sacloud_ip", "10.0.0.1"),
      ("__meta_sacloud_instances_tags", ",web,prod_1,"), ("hostname", "a-host"),
      ("service", "web")],
    Source := "sacloud" }

def tgtOther : Target :=
  { Service := "web", Tags := ["x"], IgnoreTags := ["y"], Ports := [1, 2, 3],
    InterfaceIndex := 0 }

def cfgOther : Config :=
  { Token := "t", Secret := "s", Zone := "is1b", BaseTags := ["base"], Targets := [],
    HostNameType := "server_name" }

/-- The string `pat` occurs in `text` as a substring. -/
def occursIn (pat text : String) : Prop := pat.data <:+: text.data

instance occursInDecidable (pat text : String) : Decidable (occursIn pat text) :=
  inferInstanceAs (Decidable (pat.data <:+: text.data))

def srvWeb2 : Server :=
  { ID := 5, Name := "w", HostName := "w-host", Zone := ⟨"is1a"⟩,
    Interfaces := [⟨"10.0.0.5", ""⟩], Tags := ["web2", "myweb"] }

def groupWeb2 : Group :=
  { Targets := [[("__address__", "10.0.0.5:9100")]],
    Labels := [("__meta_sacloud_zone", "is1a"), ("__meta_sacloud_resource_id", "5"),
      ("__meta_sacloud_name", "w"), ("__meta_sacloud_ip", "10.0.0.5"),
      ("__meta_sacloud_instances_tags", ",web2,myweb,"), ("hostname", "w"), ("service", "web")],
    Source := "sacloud" }

/-- The marshalled groups of the rule at position `n`, when its inventory
fetch succeeds and `buildMetadata` returns. -/
def ruleGroups (env : Env) (config : Config) (n : Nat) (target : Target) :
    Option (List MarshalledGroup) :=
  match listServers env n config.Zone (config.BaseTags ++ target.Tags) with
  | Except.error _ => none
  | Except.ok rawServers =>
    match buildMetadata (ignoreLoop target rawServers []) target config with
    | Except.error _ => none
    | Except.ok (targetGroups, _) =>
      some (targetGroups.map (fun g => (Group.MarshalYAML g).1))

/-- The merged group list of the rules from position `n` on: the groups of
every rule, concatenated in rule order. -/
def mergedGroups (env : Env) (config : Config) : Nat → List Target → Option (List MarshalledGroup)
  | _, [] => some []
  | n, target :: rest =>
    match ruleGroups env config n target, mergedGroups env config (n + 1) rest with
    | some a, some b => some (a ++ b)
    | _, _ => none

/-- Every inventory fetch of the rules from position `n` on succeeds. -/
def allFetched (env : Env) (config : Config) (n : Nat) (targets : List Target) : Prop :=
  ∀ i target, targets.get? i = some target →
    ∃ rawServers,
      listServers env (n + i) config.Zone (config.BaseTags ++ target.Tags) = Except.ok rawServers

/-- A stand-in encoder for the examples: the target addresses of every group,
one group per line. -/
def renderTargets (list : List MarshalledGroup) : Except Error String :=
  Except.ok (String.join (list.map (fun g => Join g.Targets "," ++ "\n")))

/-- Every operation succeeds; the inventory holds two servers. -/
def envOk : Env :=
  { mkdirAll := none,
    find := fun _ _ _ => Except.ok [srvP, srvB],
    create := none,
    yamlMarshal := renderTargets,
    write := fun _ => none,
    close := none }

/-- The write fails before anything is written. -/
def envWriteFails : Env :=
  { envOk with write := fun _ => some (0, "no space left on device") }

/-- The directory cannot be created. -/
def envMkdirFails : Env :=
  { envOk with mkdirAll := some "permission denied" }

/-- The inventory fetch fails. -/
def envFetchFails : Env :=
  { envOk with find := fun _ _ _ => Except.error "api unavailable" }

def cfgWeb : Config :=
  { Token := "", Secret := "", Zone := "is1a", BaseTags := [], Targets := [tgtWeb],
    HostNameType := "server_name" }

def cfgNeg : Config :=
  { Token := "", Secret := "", Zone := "is1a", BaseTags := [], Targets := [tgtNeg],
    HostNameType := "server_name" }

/-! ## Lemmas on `buildMetadata` -/

theorem index_ok {α : Type} (xs : List α) (i : Int) (h0 : 0 ≤ i)
    (x : α) (hx : xs.get? i.toNat = some x) : index xs i = Except.ok x := by
  unfold index
  rw [if_neg (not_lt.mpr h0), hx]

theorem index_neg {α : Type} (xs : List α) (i : Int) (h : i < 0) :
    index xs i = Except.error "index out of range" := by
  unfold index
  rw [if_pos h]

theorem resolveAddress_neg (server : Server) (target : Target)
    (h : target.InterfaceIndex < 0) :
    resolveAddress server target = Except.error "index out of range" := by
  unfold resolveAddress
  have hlen : ¬ ((server.Interfaces.length : Int) ≤ target.InterfaceIndex) := by
    have : (0 : Int) ≤ (server.Interfaces.length : Int) := Int.ofNat_nonneg _
    omega
  rw [if_neg hlen, index_neg _ _ h]

theorem resolveAddress_nonneg (server : Server) (target : Target)
    (h : 0 ≤ target.InterfaceIndex) :
    resolveAddress server target = Except.ok (firstNonEmpty (candidates server target)) := by
  unfold resolveAddress candidates firstNonEmpty
  rw [if_pos h]
  by_cases hlen : (server.Interfaces.length : Int) ≤ target.InterfaceIndex
  · have hnone : server.Interfaces.get? target.InterfaceIndex.toNat = none := by
      rw [List.get?_eq_none]
      omega
    rw [if_pos hlen, hnone]
    rfl
  · rw [if_neg hlen]
    have hlt : target.InterfaceIndex.toNat < server.Interfaces.length := by omega
    obtain ⟨iface, hi⟩ : ∃ iface, server.Interfaces.get? target.InterfaceIndex.toNat = some iface :=
      ⟨_, List.get?_eq_get hlt⟩
    cases hI : server.Interfaces with
    | nil => rw [hI] at hlt; simp at hlt
    | cons iface0 rest =>
      rw [hI] at hi
      have h0 : index (iface0 :: rest) 0 = Except.ok iface0 :=
        index_ok _ 0 (le_refl _) iface0 rfl
      rw [index_ok _ _ h iface hi, hi, h0]
      simp only [List.head?_cons]
      by_cases h1 : iface.UserIPAddress = ""
      · by_cases h2 : iface0.IPAddress = ""
        · by_cases h3 : iface0.UserIPAddress = "" <;> simp [h1, h2, h3, List.find?]
        · simp [h1, h2, List.find?]
      · simp [h1, List.find?]

theorem buildMetadataBody_nonneg (server : Server) (target : Target) (config : Config)
    (h : 0 ≤ target.InterfaceIndex) :
    buildMetadataBody server target config =
      Except.ok ((firstNonEmpty (candidates server target)).map (groupOf server target config)) := by
  unfold buildMetadataBody
  rw [resolveAddress_nonneg server target h]
  cases firstNonEmpty (candidates server target) <;> rfl

theorem buildMetadataBody_neg (server : Server) (target : Target) (config : Config)
    (h : target.InterfaceIndex < 0) :
    buildMetadataBody server target config = Except.error "index out of range" := by
  unfold buildMetadataBody
  rw [resolveAddress_neg server target h]

theorem candidates_eq_nil_of_le (server : Server) (target : Target)
    (h : (server.Interfaces.length : Int) ≤ target.InterfaceIndex) :
    candidates server target = [] := by
  unfold candidates
  split
  · have hnone : server.Interfaces.get? target.InterfaceIndex.toNat = none := by
      rw [List.get?_eq_none]
      omega
    rw [hnone]
  · rfl

theorem resolvable_iff (target : Target) (server : Server) :
    resolvable target server = true ↔
      ∃ A, firstNonEmpty (candidates server target) = some A := by
  unfold resolvable firstNonEmpty
  constructor
  · intro h
    rw [Bool.and_eq_true] at h
    have h2 := h.2
    rw [List.any_eq_true] at h2
    obtain ⟨a, ha, hne⟩ := h2
    cases hf : List.find? (fun a => decide (a ≠ "")) (candidates server target) with
    | none =>
      rw [List.find?_eq_none] at hf
      exact absurd hne (hf a ha)
    | some A => exact ⟨A, rfl⟩
  · rintro ⟨A, hA⟩
    have hmem := List.mem_of_find?_eq_some hA
    have hne := List.find?_some hA
    rw [Bool.and_eq_true]
    refine ⟨?_, List.any_eq_true.mpr ⟨A, hmem, hne⟩⟩
    by_contra hc
    have hle : (server.Interfaces.length : Int) ≤ target.InterfaceIndex := by
      simpa using hc
    rw [candidates_eq_nil_of_le server target hle] at hmem
    simp at hmem

theorem resolvable_eq_false_iff (target : Target) (server : Server) :
    resolvable target server = false ↔ firstNonEmpty (candidates server target) = none := by
  constructor
  · intro h
    cases hf : firstNonEmpty (candidates server target) with
    | none => rfl
    | some A =>
      have := (resolvable_iff target server).mpr ⟨A, hf⟩
      rw [h] at this
      exact absurd this (by decide)
  · intro h
    cases hr : resolvable target server with
    | false => rfl
    | true =>
      obtain ⟨A, hA⟩ := (resolvable_iff target server).mp hr
      rw [h] at hA
      exact absurd hA (by simp)

theorem buildMetadataLoop_nonneg (target : Target) (config : Config)
    (h : 0 ≤ target.InterfaceIndex) (servers : List Server) (acc : List Group) :
    buildMetadataLoop target config servers acc =
      Except.ok (acc ++ servers.filterMap (fun s =>
        (firstNonEmpty (candidates s target)).map (groupOf s target config))) := by
  induction servers generalizing acc with
  | nil => simp [buildMetadataLoop]
  | cons s rest ih =>
    unfold buildMetadataLoop
    rw [buildMetadataBody_nonneg s target config h]
    cases hf : firstNonEmpty (candidates s target) with
    | none => simp [ih, List.filterMap_cons, hf]
    | some A => simp [ih, List.filterMap_cons, hf]

theorem buildMetadataLoop_neg (target : Target) (config : Config)
    (h : target.InterfaceIndex < 0) (s : Server) (rest : List Server) (acc : List Group) :
    buildMetadataLoop target config (s :: rest) acc = Except.error "index out of range" := by
  unfold buildMetadataLoop
  rw [buildMetadataBody_neg s target config h]

theorem buildMetadata_nonneg (servers : List Server) (target : Target) (config : Config)
    (h : 0 ≤ target.InterfaceIndex) :
    buildMetadata servers target config =
      Except.ok (servers.filterMap (fun s =>
        (firstNonEmpty (candidates s target)).map (groupOf s target config)), none) := by
  unfold buildMetadata
  rw [buildMetadataLoop_nonneg target config h]
  simp

theorem buildMetadata_neg (s : Server) (rest : List Server) (target : Target) (config : Config)
    (h : target.InterfaceIndex < 0) :
    buildMetadata (s :: rest) target config = Except.error "index out of range" := by
  unfold buildMetadata
  rw [buildMetadataLoop_neg target config h]

theorem buildMetadata_nil (target : Target) (config : Config) :
    buildMetadata [] target config = Except.ok ([], none) := rfl

/-- The groups are those of the resolvable servers, one for one and in order. -/
theorem forall₂_filter_filterMap (target : Target) (config : Config) (servers : List Server) :
    List.Forall₂
      (fun s g => ∃ A, firstNonEmpty (candidates s target) = some A ∧
        g = groupOf s target config A)
      (servers.filter (resolvable target))
      (servers.filterMap (fun s =>
        (firstNonEmpty (candidates s target)).map (groupOf s target config))) := by
  induction servers with
  | nil => exact List.Forall₂.nil
  | cons s rest ih =>
    cases hf : firstNonEmpty (candidates s target) with
    | none =>
      have hr := (resolvable_eq_false_iff target s).mpr hf
      simpa [List.filter_cons, List.filterMap_cons, hr, hf] using ih
    | some A =>
      have hr := (resolvable_iff target s).mpr ⟨A, hf⟩
      rw [List.filter_cons, if_pos hr, List.filterMap_cons]
      simp only [hf, Option.map_some']
      exact List.Forall₂.cons ⟨A, hf, rfl⟩ ih

/-- Whenever `buildMetadata` returns, its error is `nil` and its groups are
those of the resolvable servers, one for one and in order. -/
theorem buildMetadata_groups (servers : List Server) (target : Target) (config : Config)
    (groups : List Group) (e : Option Error)
    (h : buildMetadata servers target config = Except.ok (groups, e)) :
    e = none ∧
    List.Forall₂
      (fun s g => ∃ A, firstNonEmpty (candidates s target) = some A ∧
        g = groupOf s target config A)
      (servers.filter (resolvable target)) groups := by
  by_cases hneg : target.InterfaceIndex < 0
  · cases servers with
    | nil =>
      rw [buildMetadata_nil] at h
      cases h
      exact ⟨rfl, List.Forall₂.nil⟩
    | cons s rest =>
      rw [buildMetadata_neg s rest target config hneg] at h
      cases h
  · rw [buildMetadata_nonneg servers target config (not_lt.mp hneg)] at h
    cases h
    exact ⟨rfl, forall₂_filter_filterMap target config servers⟩

/-! ## Lemmas on the port loop and the labels -/

theorem portLoop_singleton (A : String) (ports : List Int) (v : String) :
    ∃ w, portLoop A ports [(AddressLabel, v)] = [(AddressLabel, w)] ∧
      (w = v ∧ ports = [] ∨ ∃ p, ports.getLast? = some p ∧ w = A ++ ":" ++ FormatInt p) := by
  induction ports generalizing v with
  | nil => exact ⟨v, rfl, Or.inl ⟨rfl, rfl⟩⟩
  | cons p rest ih =>
    obtain ⟨w, hw, hcase⟩ := ih (A ++ ":" ++ FormatInt p)
    refine ⟨w, ?_, Or.inr ?_⟩
    · simpa [portLoop, LabelSet.set] using hw
    · rcases hcase with ⟨h1, h2⟩ | ⟨q, hq, hwq⟩
      · exact ⟨p, by simp [h2], h1⟩
      · refine ⟨q, ?_, hwq⟩
        cases rest with
        | nil => simp at hq
        | cons r rest2 => simpa [List.getLast?_cons_cons] using hq

/-- The port loop leaves one address, that of the last port, and none when
there is no port. -/
theorem portLoop_nil (A : String) (ports : List Int) :
    portLoop A ports [] =
      match ports.getLast? with
      | none => []
      | some p => [(AddressLabel, A ++ ":" ++ FormatInt p)] := by
  cases ports with
  | nil => rfl
  | cons p rest =>
    obtain ⟨w, hw, hcase⟩ := portLoop_singleton A rest (A ++ ":" ++ FormatInt p)
    have hstep : portLoop A (p :: rest) [] = portLoop A rest [(AddressLabel, A ++ ":" ++ FormatInt p)] := by
      simp [portLoop, LabelSet.set]
    rw [hstep, hw]
    rcases hcase with ⟨h1, h2⟩ | ⟨q, hq, hwq⟩
    · subst h2
      simp [h1]
    · cases rest with
      | nil => simp at hq
      | cons r rest2 =>
        rw [List.getLast?_cons_cons, hq]
        simp [hwq]

theorem sanitizeLoop_eq (tags acc : List String) :
    sanitizeLoop tags acc = acc ++ tags.map SanitizeLabelName := by
  induction tags generalizing acc with
  | nil => simp [sanitizeLoop]
  | cons t rest ih => simp [sanitizeLoop, ih]

theorem sacloudLabelZone_eq : sacloudLabelZone = "__meta_sacloud_zone" := by decide
theorem sacloudLabelResourceID_eq : sacloudLabelResourceID = "__meta_sacloud_resource_id" := by
  decide
theorem sacloudLabelName_eq : sacloudLabelName = "__meta_sacloud_name" := by decide
theorem sacloudLabelIP_eq : sacloudLabelIP = "__meta_sacloud_ip" := by decide
theorem sacloudLabelTag_eq : sacloudLabelTag = "__meta_sacloud_instances_tags" := by decide

/-- The label set `buildLabels` computes, entry by entry. -/
theorem buildLabels_eq (server : Server) (target : Target) (config : Config) (A : String) :
    buildLabels server target config A =
      [("__meta_sacloud_zone", server.Zone.Name),
       ("__meta_sacloud_resource_id", FormatInt server.ID),
       ("__meta_sacloud_name", server.Name),
       ("__meta_sacloud_ip", A)] ++ tagEntry server ++
      [("hostname", hostnameValue server config), ("service", target.Service)] := by
  unfold buildLabels tagEntry hostnameValue
  rw [sacloudLabelZone_eq, sacloudLabelResourceID_eq, sacloudLabelName_eq, sacloudLabelIP_eq,
    sacloudLabelTag_eq, sanitizeLoop_eq]
  by_cases ht : server.Tags = []
  · by_cases hh : config.HostNameType = "modify_disk" <;>
      simp [ht, hh, LabelSet.set]
  · have hlen : server.Tags.length > 0 := List.length_pos.mpr ht
    by_cases hh : config.HostNameType = "modify_disk" <;>
      simp [ht, hh, hlen, LabelSet.set]

/-- Whenever `buildMetadata` returns, its groups are the groups of the
resolvable servers at their resolved addresses. -/
theorem buildMetadata_eq_map (servers : List Server) (target : Target) (config : Config)
    (groups : List Group) (e : Option Error)
    (h : buildMetadata servers target config = Except.ok (groups, e)) :
    groups = (servers.filter (resolvable target)).map
      (fun s => groupOf s target config (resolvedAddress s target)) := by
  have hF := (buildMetadata_groups servers target config groups e h).2
  clear h
  generalize servers.filter (resolvable target) = l at hF
  induction hF with
  | nil => rfl
  | cons hab _ ih =>
    obtain ⟨A, hA, hg⟩ := hab
    rw [List.map_cons, ← ih, hg]
    simp only [resolvedAddress, hA, Option.getD_some]

/-- A property of every resolvable server's group is a property of the output
of `buildMetadata`, server by server. -/
theorem buildMetadata_forall₂ (servers : List Server) (target : Target) (config : Config)
    (groups : List Group) (e : Option Error)
    (h : buildMetadata servers target config = Except.ok (groups, e))
    (P : Server → Group → Prop)
    (hP : ∀ s ∈ servers, ∀ A, firstNonEmpty (candidates s target) = some A →
      P s (groupOf s target config A)) :
    List.Forall₂ P (servers.filter (resolvable target)) groups := by
  have hF := (buildMetadata_groups servers target config groups e h).2
  have hsub : ∀ s ∈ servers.filter (resolvable target), s ∈ servers :=
    fun s hs => (List.mem_filter.mp hs).1
  clear h
  generalize servers.filter (resolvable target) = l at hF hsub
  induction hF with
  | nil => exact List.Forall₂.nil
  | cons hab _ ih =>
    obtain ⟨A, hA, hg⟩ := hab
    refine List.Forall₂.cons ?_ (ih (fun s hs => hsub s (List.mem_cons_of_mem _ hs)))
    rw [hg]
    exact hP _ (hsub _ (List.mem_cons_self _ _)) A hA

theorem firstNonEmpty_candidates (server : Server) (target : Target) (A : String)
    (h : firstNonEmpty (candidates server target) = some A) :
    0 ≤ target.InterfaceIndex ∧
    target.InterfaceIndex < (server.Interfaces.length : Int) ∧
    ∃ iface iface0,
      server.Interfaces.get? target.InterfaceIndex.toNat = some iface ∧
      server.Interfaces.get? 0 = some iface0 ∧
      candidates server target = [iface.UserIPAddress, iface0.IPAddress, iface0.UserIPAddress] := by
  have hr := (resolvable_iff target server).mpr ⟨A, h⟩
  unfold resolvable at hr
  rw [Bool.and_eq_true] at hr
  have hlt : target.InterfaceIndex < (server.Interfaces.length : Int) := by simpa using hr.1
  have hne : candidates server target ≠ [] := by
    intro hc
    rw [hc] at h
    simp [firstNonEmpty] at h
  unfold candidates at hne ⊢
  by_cases h0 : 0 ≤ target.InterfaceIndex
  · rw [if_pos h0] at hne ⊢
    refine ⟨h0, hlt, ?_⟩
    cases h1 : server.Interfaces.get? target.InterfaceIndex.toNat with
    | none => rw [h1] at hne; exact absurd rfl hne
    | some iface =>
      cases h2 : server.Interfaces.head? with
      | none =>
        rw [h1, h2] at hne
        exact absurd rfl hne
      | some iface0 =>
        refine ⟨iface, iface0, rfl, ?_, rfl⟩
        cases hI : server.Interfaces with
        | nil => rw [hI] at h2; simp at h2
        | cons a rest =>
          rw [hI] at h2
          simpa using h2
  · rw [if_neg h0] at hne
    exact absurd rfl hne

theorem get_buildLabels (server : Server) (target : Target) (config : Config) (A : String) :
    LabelSet.get (buildLabels server target config A) sacloudLabelZone = some server.Zone.Name ∧
    LabelSet.get (buildLabels server target config A) sacloudLabelResourceID
      = some (FormatInt server.ID) ∧
    LabelSet.get (buildLabels server target config A) sacloudLabelName = some server.Name ∧
    LabelSet.get (buildLabels server target config A) sacloudLabelIP = some A ∧
    LabelSet.get (buildLabels server target config A) "hostname"
      = some (hostnameValue server config) ∧
    LabelSet.get (buildLabels server target config A) "service" = some target.Service ∧
    LabelSet.get (buildLabels server target config A) sacloudLabelTag
      = if server.Tags = [] then none
        else some ("," ++ Join (server.Tags.map SanitizeLabelName) "," ++ ",") := by
  rw [buildLabels_eq, sacloudLabelZone_eq, sacloudLabelResourceID_eq, sacloudLabelName_eq,
    sacloudLabelIP_eq, sacloudLabelTag_eq]
  unfold tagEntry
  by_cases ht : server.Tags = [] <;> simp [ht, LabelSet.get]

/-! ## Lemmas on the ignore-tag loop -/

theorem HasTag_iff (tags : List String) (tag : String) :
    HasTag tags tag = true ↔ tag ∈ tags := by
  induction tags with
  | nil => simp [HasTag]
  | cons t rest ih =>
    unfold HasTag
    by_cases h : t = tag
    · simp [h]
    · rw [if_neg h, ih]
      simp [Ne.symm h]

theorem isIgnoredLoop_iff (server : Server) (ignores : List String) :
    isIgnoredLoop server ignores = true ↔ ∃ t ∈ ignores, t ∈ server.Tags := by
  induction ignores with
  | nil => simp [isIgnoredLoop]
  | cons ig rest ih =>
    unfold isIgnoredLoop
    by_cases h : HasTag server.Tags ig = true
    · rw [if_pos h]
      simp [(HasTag_iff _ _).mp h]
    · rw [if_neg h, ih]
      have hmem : ig ∉ server.Tags := fun hm => h ((HasTag_iff _ _).mpr hm)
      simp [hmem]

theorem ignoreLoop_eq (target : Target) (rawServers acc : List Server) :
    ignoreLoop target rawServers acc =
      acc ++ rawServers.filter (fun s => decide (∀ t ∈ target.IgnoreTags, t ∉ s.Tags)) := by
  induction rawServers generalizing acc with
  | nil => simp [ignoreLoop]
  | cons s rest ih =>
    unfold ignoreLoop
    by_cases h : isIgnoredLoop s target.IgnoreTags = true
    · have hex := (isIgnoredLoop_iff s target.IgnoreTags).mp h
      have hd : ¬ ∀ t ∈ target.IgnoreTags, t ∉ s.Tags := by
        intro hall
        obtain ⟨t, ht, hts⟩ := hex
        exact hall t ht hts
      simp [h, ih, List.filter_cons, hd]
    · have hd : ∀ t ∈ target.IgnoreTags, t ∉ s.Tags := by
        intro t ht hts
        exact h ((isIgnoredLoop_iff s target.IgnoreTags).mpr ⟨t, ht, hts⟩)
      have hb : isIgnoredLoop s target.IgnoreTags = false := by simpa using h
      rw [hb]
      simp only [Bool.not_false, if_true, ih, List.filter_cons]
      rw [if_pos (by simpa using hd)]
      simp

/-! ## The claims -/

/-- C1: the ignore-tag loop of `generate` keeps exactly the servers carrying
none of the rule's `ignore_tags` (string equality), in their original order;
a server carrying one of them is not passed on, whatever the rule's inclusion
tags are, and every group `buildMetadata` then emits for the rule is the group
of a fetched server carrying none of them. -/
theorem ignoreLoop_keeps_exactly (rawServers : List Server) (target : Target) :
    ignoreLoop target rawServers [] =
      rawServers.filter (fun s => decide (∀ t ∈ target.IgnoreTags, t ∉ s.Tags)) ∧
    (∀ s ∈ rawServers, (∃ t ∈ target.IgnoreTags, t ∈ s.Tags) →
      s ∉ ignoreLoop target rawServers []) ∧
    (∀ (config : Config) (groups : List Group) (e : Option Error),
      buildMetadata (ignoreLoop target rawServers []) target config = Except.ok (groups, e) →
      ∀ g ∈ groups, ∃ s ∈ rawServers, (∀ t ∈ target.IgnoreTags, t ∉ s.Tags) ∧
        buildMetadataBody s target config = Except.ok (some g)) := by
  have heq := ignoreLoop_eq target rawServers []
  rw [List.nil_append] at heq
  refine ⟨heq, ?_, ?_⟩
  · rintro s _ ⟨t, ht, hts⟩ hmem
    rw [heq, List.mem_filter] at hmem
    exact (of_decide_eq_true hmem.2) t ht hts
  · intro config groups e h g hg
    have hmap := buildMetadata_eq_map _ target config groups e h
    rw [hmap, List.mem_map] at hg
    obtain ⟨s, hs, hsg⟩ := hg
    rw [List.mem_filter] at hs
    obtain ⟨hs1, hs2⟩ := hs
    rw [heq, List.mem_filter] at hs1
    refine ⟨s, hs1.1, of_decide_eq_true hs1.2, ?_⟩
    obtain ⟨A, hA⟩ := (resolvable_iff target s).mp hs2
    have h0 := (firstNonEmpty_candidates s target A hA).1
    rw [buildMetadataBody_nonneg s target config h0, ← hsg]
    simp [resolvedAddress, hA]

/-- Witness of C1: with `prod` both an inclusion and an ignore tag, the server
tagged `prod` is dropped; and with `ignore_tags = [staging]` the one emitted
group belongs to a server without that tag. -/
theorem ignoreLoop_keeps_exactly_witness :
    srvB ∉ ignoreLoop tgtOverlap [srvP, srvB] [] ∧
    ∀ g ∈ [groupP], ∃ s ∈ [srvP, srvB], (∀ t ∈ tgtWeb.IgnoreTags, t ∉ s.Tags) ∧
      buildMetadataBody s tgtWeb cfgA = Except.ok (some g) :=
  ⟨(ignoreLoop_keeps_exactly [srvP, srvB] tgtOverlap).2.1 srvB (by decide)
      ⟨"prod", by decide, by decide⟩,
   (ignoreLoop_keeps_exactly [srvP, srvB] tgtWeb).2.2 cfgA [groupP] none (by rfl)⟩

/-- C2: for a rule with `interface_index ≥ 0`, `buildMetadata` returns, and for
every server it emits a group for, the interfaces at `interface_index` and at 0
exist, and the first non-empty string of [user address of
interface[interface_index], provider address of interface[0], user address of
interface[0]] is the value of the `__meta_sacloud_ip` label and the host part
of the group's target address (which carries the rule's last port). -/
theorem resolved_address_first_non_empty (servers : List Server) (target : Target)
    (config : Config) (h0 : 0 ≤ target.InterfaceIndex) :
    ∃ groups, buildMetadata servers target config = Except.ok (groups, none) ∧
      List.Forall₂
        (fun s g => ∃ iface iface0 A,
          target.InterfaceIndex < (s.Interfaces.length : Int) ∧
          s.Interfaces.get? target.InterfaceIndex.toNat = some iface ∧
          s.Interfaces.get? 0 = some iface0 ∧
          firstNonEmpty [iface.UserIPAddress, iface0.IPAddress, iface0.UserIPAddress] = some A ∧
          LabelSet.get g.Labels sacloudLabelIP = some A ∧
          ∀ t ∈ g.Targets, ∀ a, LabelSet.get t AddressLabel = some a →
            ∃ p ∈ target.Ports, a = A ++ ":" ++ FormatInt p)
        (servers.filter (resolvable target)) groups := by
  refine ⟨_, buildMetadata_nonneg servers target config h0, ?_⟩
  refine buildMetadata_forall₂ servers target config _ none
    (buildMetadata_nonneg servers target config h0) _ ?_
  intro s _ A hA
  obtain ⟨_, hlt, iface, iface0, hi, hi0, hc⟩ := firstNonEmpty_candidates s target A hA
  refine ⟨iface, iface0, A, hlt, hi, hi0, ?_, ?_, ?_⟩
  · rw [← hc]; exact hA
  · exact (get_buildLabels s target config A).2.2.2.1
  · intro t ht a ha
    simp only [groupOf, List.mem_singleton] at ht
    rw [ht, portLoop_nil] at ha
    cases hl : target.Ports.getLast? with
    | none => rw [hl] at ha; simp [LabelSet.get] at ha
    | some p =>
      rw [hl] at ha
      simp only [LabelSet.get, if_true, Option.some.injEq] at ha
      exact ⟨p, List.mem_of_getLast?_eq_some hl, ha.symm⟩

/-- Witness of C2: interface[0] with an empty user address and provider address
`1.2.3.4` resolves to `1.2.3.4` under `interface_index = 0`; the addresses of
interface[1] are not used. -/
theorem resolved_address_first_non_empty_witness :
    (0 : Int) ≤ tgtWeb.InterfaceIndex ∧
    buildMetadata [srvFallback] tgtWeb cfgA = Except.ok ([groupFallback], none) ∧
    ∃ groups, buildMetadata [srvFallback] tgtWeb cfgA = Except.ok (groups, none) ∧
      List.Forall₂
        (fun s g => ∃ iface iface0 A,
          tgtWeb.InterfaceIndex < (s.Interfaces.length : Int) ∧
          s.Interfaces.get? tgtWeb.InterfaceIndex.toNat = some iface ∧
          s.Interfaces.get? 0 = some iface0 ∧
          firstNonEmpty [iface.UserIPAddress, iface0.IPAddress, iface0.UserIPAddress] = some A ∧
          LabelSet.get g.Labels sacloudLabelIP = some A ∧
          ∀ t ∈ g.Targets, ∀ a, LabelSet.get t AddressLabel = some a →
            ∃ p ∈ tgtWeb.Ports, a = A ++ ":" ++ FormatInt p)
        ([srvFallback].filter (resolvable tgtWeb)) groups :=
  ⟨by decide, by rfl, resolved_address_first_non_empty [srvFallback] tgtWeb cfgA (by decide)⟩

/-- C3: for a rule with `interface_index ≥ 0`, `buildMetadata` returns exactly
one group for each server that has more than `interface_index` interfaces and a
non-empty fallback address, in input order, and none for any other server; the
`__meta_sacloud_resource_id` labels of the output are the decimal ids of the
resolvable servers in input order, duplicates kept. -/
theorem buildMetadata_one_group_per_resolvable (servers : List Server) (target : Target)
    (config : Config) (h0 : 0 ≤ target.InterfaceIndex) :
    ∃ groups, buildMetadata servers target config = Except.ok (groups, none) ∧
      List.Forall₂ (fun s g => buildMetadataBody s target config = Except.ok (some g))
        (servers.filter (resolvable target)) groups ∧
      (∀ s ∈ servers, resolvable target s = false →
        buildMetadataBody s target config = Except.ok none) ∧
      groups.map (fun g => LabelSet.get g.Labels sacloudLabelResourceID) =
        (servers.filter (resolvable target)).map (fun s => some (FormatInt s.ID)) := by
  have hb := buildMetadata_nonneg servers target config h0
  refine ⟨_, hb, ?_, ?_, ?_⟩
  · refine buildMetadata_forall₂ servers target config _ none hb _ ?_
    intro s _ A hA
    rw [buildMetadataBody_nonneg s target config h0, hA]
    rfl
  · intro s _ hr
    rw [buildMetadataBody_nonneg s target config h0,
      (resolvable_eq_false_iff target s).mp hr]
    rfl
  · rw [buildMetadata_eq_map servers target config _ none hb, List.map_map]
    refine List.map_congr_left ?_
    intro s _
    exact (get_buildLabels s target config _).2.1

/-- Witness of C3: of five servers (one without address, one without interface,
one repeated) the three resolvable ones give the ids 1, 7, 1 in input order. -/
theorem buildMetadata_one_group_per_resolvable_witness :
    (0 : Int) ≤ tgtWeb.InterfaceIndex ∧
    [srvP, srvNoAddr, srvFallback, srvNoIface, srvP].filter (resolvable tgtWeb)
      = [srvP, srvFallback, srvP] ∧
    ∃ groups, buildMetadata [srvP, srvNoAddr, srvFallback, srvNoIface, srvP] tgtWeb cfgA
        = Except.ok (groups, none) ∧
      List.Forall₂ (fun s g => buildMetadataBody s tgtWeb cfgA = Except.ok (some g))
        ([srvP, srvNoAddr, srvFallback, srvNoIface, srvP].filter (resolvable tgtWeb)) groups ∧
      (∀ s ∈ [srvP, srvNoAddr, srvFallback, srvNoIface, srvP], resolvable tgtWeb s = false →
        buildMetadataBody s tgtWeb cfgA = Except.ok none) ∧
      groups.map (fun g => LabelSet.get g.Labels sacloudLabelResourceID) =
        ([srvP, srvNoAddr, srvFallback, srvNoIface, srvP].filter (resolvable tgtWeb)).map
          (fun s => some (FormatInt s.ID)) :=
  ⟨by decide, by decide,
    buildMetadata_one_group_per_resolvable [srvP, srvNoAddr, srvFallback, srvNoIface, srvP]
      tgtWeb cfgA (by decide)⟩

/-- C4 (the code departs from the claim): for a rule with the two ports 9100 and
9200 the group of a resolvable server lists one target, the address of the
last port, not one address per port. -/
theorem buildMetadata_two_ports_one_target :
    buildMetadata [srvP] tgtTwoPorts cfgA = Except.ok ([groupLastPort], none) ∧
    tgtTwoPorts.Ports.length = 2 ∧
    groupLastPort.Targets.length = 1 ∧
    (Group.MarshalYAML groupLastPort).1.Targets = ["10.0.0.1:9200"] :=
  ⟨by rfl, by decide, by decide, by decide⟩

theorem join_wrapped (ss : List String) (h : ss ≠ []) :
    "," ++ Join ss "," ++ "," = commaWrapped ss := by
  induction ss with
  | nil => exact absurd rfl h
  | cons e rest ih =>
    cases rest with
    | nil => simp [Join, commaWrapped, String.append_assoc]
    | cons e2 rest2 =>
      have ih2 := ih (by simp)
      rw [Join, commaWrapped, ← ih2]
      · simp [String.append_assoc]
      · simp

theorem get_tag_of_ne_nil (server : Server) (target : Target) (config : Config) (A : String)
    (ht : server.Tags ≠ []) :
    LabelSet.get (groupOf server target config A).Labels sacloudLabelTag
      = some (commaWrapped (server.Tags.map SanitizeLabelName)) := by
  have hg := (get_buildLabels server target config A).2.2.2.2.2.2
  have hne : server.Tags.map SanitizeLabelName ≠ [] := by simpa using ht
  simp only [groupOf]
  rw [hg, if_neg ht, join_wrapped _ hne]

/-- C5: in every group `buildMetadata` emits, the label
`__meta_sacloud_instances_tags` is absent exactly when the server has no tag,
and for a server with tags its value is `"," + s1 + "," + ... + sn + ","` with
`si` the sanitized i-th tag of the server, in the server's tag order. -/
theorem instances_tags_label (servers : List Server) (target : Target) (config : Config)
    (groups : List Group) (e : Option Error)
    (h : buildMetadata servers target config = Except.ok (groups, e)) :
    List.Forall₂
      (fun s g =>
        (LabelSet.get g.Labels sacloudLabelTag = none ↔ s.Tags = []) ∧
        (s.Tags ≠ [] → LabelSet.get g.Labels sacloudLabelTag
          = some (commaWrapped (s.Tags.map SanitizeLabelName))))
      (servers.filter (resolvable target)) groups := by
  refine buildMetadata_forall₂ servers target config groups e h _ ?_
  intro s _ A _
  have hg := (get_buildLabels s target config A).2.2.2.2.2.2
  simp only [groupOf]
  rw [hg]
  by_cases ht : s.Tags = []
  · simp [ht]
  · have hne : s.Tags.map SanitizeLabelName ≠ [] := by simpa using ht
    simp [ht, join_wrapped _ hne]

/-- Witness of C5: the tags `web`, `prod-1` give the label value `,web,prod_1,`. -/
theorem instances_tags_label_witness :
    LabelSet.get groupA.Labels sacloudLabelTag = some ",web,prod_1," ∧
    commaWrapped (srvA.Tags.map SanitizeLabelName) = ",web,prod_1," ∧
    List.Forall₂
      (fun s g =>
        (LabelSet.get g.Labels sacloudLabelTag = none ↔ s.Tags = []) ∧
        (s.Tags ≠ [] → LabelSet.get g.Labels sacloudLabelTag
          = some (commaWrapped (s.Tags.map SanitizeLabelName))))
      ([srvA].filter (resolvable tgtA)) [groupA] :=
  ⟨by decide, by decide, instances_tags_label [srvA] tgtA cfgA [groupA] none (by rfl)⟩

/-- C8 (the code departs from the claim): with `interface_index = -1` the
guard of line 202 does not skip the server and `Interfaces[-1]` panics. -/
theorem buildMetadata_negative_index_panics :
    buildMetadata [srvP] tgtNeg cfgA = Except.error "index out of range" ∧
    buildMetadata [srvNoIface] tgtNeg cfgA = Except.error "index out of range" :=
  ⟨by rfl, by rfl⟩

theorem candidates_congr (server : Server) (target target' : Target)
    (h : target'.InterfaceIndex = target.InterfaceIndex) :
    candidates server target' = candidates server target := by
  unfold candidates
  rw [h]

theorem resolvable_congr (target target' : Target)
    (h : target'.InterfaceIndex = target.InterfaceIndex) :
    resolvable target' = resolvable target := by
  funext s
  unfold resolvable
  rw [candidates_congr s target target' h, h]

theorem resolvedAddress_congr (server : Server) (target target' : Target)
    (h : target'.InterfaceIndex = target.InterfaceIndex) :
    resolvedAddress server target' = resolvedAddress server target := by
  unfold resolvedAddress
  rw [candidates_congr server target target' h]

/-- Whether `buildMetadata` returns depends on the rule's interface index only. -/
theorem buildMetadata_ok_congr (servers : List Server) (target target' : Target)
    (config config' : Config) (groups : List Group) (e : Option Error)
    (h : buildMetadata servers target config = Except.ok (groups, e))
    (hi : target'.InterfaceIndex = target.InterfaceIndex) :
    ∃ groups', buildMetadata servers target' config' = Except.ok (groups', none) := by
  by_cases hneg : target.InterfaceIndex < 0
  · cases servers with
    | nil => exact ⟨[], rfl⟩
    | cons s rest =>
      rw [buildMetadata_neg s rest target config hneg] at h
      cases h
  · exact ⟨_, buildMetadata_nonneg servers target' config' (by rw [hi]; exact not_lt.mp hneg)⟩

theorem get_append_cons_of_ne (pre post : LabelSet) (key v1 v2 k : String) (hk : k ≠ key) :
    LabelSet.get (pre ++ (key, v1) :: post) k = LabelSet.get (pre ++ (key, v2) :: post) k := by
  induction pre with
  | nil => simp [LabelSet.get, Ne.symm hk]
  | cons a rest ih =>
    obtain ⟨k', v'⟩ := a
    show (if k' = k then some v' else LabelSet.get (rest ++ (key, v1) :: post) k) =
      (if k' = k then some v' else LabelSet.get (rest ++ (key, v2) :: post) k)
    rw [ih]

/-- C6: the `hostname` label of every emitted group is the server's HostName
when `HostNameType` is `modify_disk` and the server's Name for any other value;
the two modes emit groups for the same servers, with the same targets and the
same labels apart from `hostname`, and different `hostname` labels for a server
whose HostName and Name differ. -/
theorem hostname_label (servers : List Server) (target : Target) (config1 config2 : Config)
    (groups1 : List Group) (e1 : Option Error)
    (hm : config1.HostNameType = "modify_disk") (hn : config2.HostNameType ≠ "modify_disk")
    (h1 : buildMetadata servers target config1 = Except.ok (groups1, e1)) :
    ∃ groups2, buildMetadata servers target config2 = Except.ok (groups2, none) ∧
      groups1.length = groups2.length ∧
      List.Forall₂
        (fun s (p : Group × Group) =>
          LabelSet.get p.1.Labels "hostname" = some s.HostName ∧
          LabelSet.get p.2.Labels "hostname" = some s.Name ∧
          p.1.Targets = p.2.Targets ∧
          (∀ k, k ≠ "hostname" → LabelSet.get p.1.Labels k = LabelSet.get p.2.Labels k) ∧
          (s.HostName ≠ s.Name →
            LabelSet.get p.1.Labels "hostname" ≠ LabelSet.get p.2.Labels "hostname"))
        (servers.filter (resolvable target)) (groups1.zip groups2) := by
  obtain ⟨groups2, h2⟩ := buildMetadata_ok_congr servers target target config1 config2
    groups1 e1 h1 rfl
  refine ⟨groups2, h2, ?_, ?_⟩
  · rw [buildMetadata_eq_map servers target config1 groups1 e1 h1,
      buildMetadata_eq_map servers target config2 groups2 none h2]
    simp
  · rw [buildMetadata_eq_map servers target config1 groups1 e1 h1,
      buildMetadata_eq_map servers target config2 groups2 none h2, List.zip_map',
      List.forall₂_map_right_iff, List.forall₂_same]
    intro s _
    have g1 := (get_buildLabels s target config1 (resolvedAddress s target)).2.2.2.2.1
    have g2 := (get_buildLabels s target config2 (resolvedAddress s target)).2.2.2.2.1
    have hv1 : hostnameValue s config1 = s.HostName := by
      unfold hostnameValue
      rw [if_pos hm]
    have hv2 : hostnameValue s config2 = s.Name := by
      unfold hostnameValue
      rw [if_neg hn]
    rw [hv1] at g1
    rw [hv2] at g2
    refine ⟨g1, g2, rfl, ?_, ?_⟩
    · intro k hk
      simp only [groupOf]
      rw [buildLabels_eq, buildLabels_eq, List.append_assoc, List.append_assoc]
      rw [← List.append_assoc _ (tagEntry s), ← List.append_assoc _ (tagEntry s)]
      exact get_append_cons_of_ne _ _ "hostname" _ _ k hk
    · intro hne heq
      simp only [groupOf] at heq g1 g2
      rw [g1, g2] at heq
      exact hne (Option.some.inj heq)

/-- Witness of C6: the server named `a` with host name `a-host`, under
`modify_disk` and under the empty mode. -/
theorem hostname_label_witness :
    cfgDisk.HostNameType = "modify_disk" ∧ cfgEmptyMode.HostNameType ≠ "modify_disk" ∧
    buildMetadata [srvA] tgtA cfgDisk = Except.ok ([groupADisk], none) ∧
    buildMetadata [srvA] tgtA cfgEmptyMode = Except.ok ([groupA], none) ∧
    LabelSet.get groupADisk.Labels "hostname" = some "a-host" ∧
    LabelSet.get groupA.Labels "hostname" = some "a" ∧
    ∃ groups2, buildMetadata [srvA] tgtA cfgEmptyMode = Except.ok (groups2, none) ∧
      [groupADisk].length = groups2.length ∧
      List.Forall₂
        (fun s (p : Group × Group) =>
          LabelSet.get p.1.Labels "hostname" = some s.HostName ∧
          LabelSet.get p.2.Labels "hostname" = some s.Name ∧
          p.1.Targets = p.2.Targets ∧
          (∀ k, k ≠ "hostname" → LabelSet.get p.1.Labels k = LabelSet.get p.2.Labels k) ∧
          (s.HostName ≠ s.Name →
            LabelSet.get p.1.Labels "hostname" ≠ LabelSet.get p.2.Labels "hostname"))
        ([srvA].filter (resolvable tgtA)) ([groupADisk].zip groups2) :=
  ⟨by decide, by decide, by rfl, by rfl, by decide, by decide,
    hostname_label [srvA] tgtA cfgDisk cfgEmptyMode [groupADisk] none (by decide) (by decide)
      (by rfl)⟩

theorem buildLabels_congr (server : Server) (target target' : Target) (config config' : Config)
    (A : String) (hs : target'.Service = target.Service)
    (hh : config'.HostNameType = config.HostNameType) :
    buildLabels server target' config' A = buildLabels server target config A := by
  rw [buildLabels_eq, buildLabels_eq]
  unfold hostnameValue
  rw [hs, hh]

/-- C7: the label keys of every emitted group are the six fixed keys, plus
`__meta_sacloud_instances_tags` when the server has tags, each once; zone,
resource id (decimal), name and service carry the server's zone name, id and
display name and the rule's service; and the labels do not change with the
rule's tags, ignore tags and ports or with the config's base tags. -/
theorem label_keys_and_values (servers : List Server) (target : Target) (config : Config)
    (groups : List Group) (e : Option Error)
    (h : buildMetadata servers target config = Except.ok (groups, e)) :
    List.Forall₂
      (fun s g =>
        (∀ k, k ∈ LabelSet.keys g.Labels ↔
          (k ∈ [sacloudLabelZone, sacloudLabelResourceID, sacloudLabelName, sacloudLabelIP,
                "hostname", "service"] ∨ (s.Tags ≠ [] ∧ k = sacloudLabelTag))) ∧
        (LabelSet.keys g.Labels).Nodup ∧
        LabelSet.get g.Labels sacloudLabelZone = some s.Zone.Name ∧
        LabelSet.get g.Labels sacloudLabelResourceID = some (FormatInt s.ID) ∧
        LabelSet.get g.Labels sacloudLabelName = some s.Name ∧
        LabelSet.get g.Labels "service" = some target.Service)
      (servers.filter (resolvable target)) groups ∧
    ∀ (target' : Target) (config' : Config),
      target'.Service = target.Service →
      target'.InterfaceIndex = target.InterfaceIndex →
      config'.HostNameType = config.HostNameType →
      ∃ groups', buildMetadata servers target' config' = Except.ok (groups', none) ∧
        groups'.map Group.Labels = groups.map Group.Labels := by
  constructor
  · refine buildMetadata_forall₂ servers target config groups e h _ ?_
    intro s _ A _
    obtain ⟨hz, hr, hnm, _, _, hsv, _⟩ := get_buildLabels s target config A
    refine ⟨?_, ?_, hz, hr, hnm, hsv⟩
    · intro k
      simp only [groupOf]
      rw [buildLabels_eq, sacloudLabelZone_eq, sacloudLabelResourceID_eq, sacloudLabelName_eq,
        sacloudLabelIP_eq, sacloudLabelTag_eq]
      unfold tagEntry LabelSet.keys
      by_cases ht : s.Tags = []
      · simp [ht]
      · simp [ht]
        tauto
    · simp only [groupOf]
      rw [buildLabels_eq]
      unfold tagEntry LabelSet.keys
      by_cases ht : s.Tags = [] <;> simp [ht]
  · intro target' config' hs hi hh
    obtain ⟨groups', h'⟩ := buildMetadata_ok_congr servers target target' config config'
      groups e h hi
    refine ⟨groups', h', ?_⟩
    rw [buildMetadata_eq_map servers target config groups e h,
      buildMetadata_eq_map servers target' config' groups' none h', resolvable_congr target target' hi,
      List.map_map, List.map_map]
    refine List.map_congr_left ?_
    intro s _
    simp only [Function.comp, groupOf]
    rw [resolvedAddress_congr s target target' hi, buildLabels_congr s target target' config config' _ hs hh]

/-- Witness of C7: the group of the server with tags `web`, `prod-1`, and the
same labels under a rule with other tags, ignore tags and ports and a config
with other base tags. -/
theorem label_keys_and_values_witness :
    List.Forall₂
      (fun s g =>
        (∀ k, k ∈ LabelSet.keys g.Labels ↔
          (k ∈ [sacloudLabelZone, sacloudLabelResourceID, sacloudLabelName, sacloudLabelIP,
                "hostname", "service"] ∨ (s.Tags ≠ [] ∧ k = sacloudLabelTag))) ∧
        (LabelSet.keys g.Labels).Nodup ∧
        LabelSet.get g.Labels sacloudLabelZone = some s.Zone.Name ∧
        LabelSet.get g.Labels sacloudLabelResourceID = some (FormatInt s.ID) ∧
        LabelSet.get g.Labels sacloudLabelName = some s.Name ∧
        LabelSet.get g.Labels "service" = some tgtA.Service)
      ([srvA].filter (resolvable tgtA)) [groupA] ∧
    ∃ groups', buildMetadata [srvA] tgtOther cfgOther = Except.ok (groups', none) ∧
      groups'.map Group.Labels = [groupA].map Group.Labels :=
  ⟨(label_keys_and_values [srvA] tgtA cfgA [groupA] none (by rfl)).1,
   (label_keys_and_values [srvA] tgtA cfgA [groupA] none (by rfl)).2 tgtOther cfgOther
     (by decide) (by decide) (by decide)⟩

/-! ## Lemmas on the comma-wrapped tag list -/

theorem validLabelChar_comma : validLabelChar ',' = false := by decide

theorem sanitize_no_comma (t : String) : ',' ∉ (SanitizeLabelName t).data := by
  intro hmem
  unfold SanitizeLabelName at hmem
  rw [List.mem_map] at hmem
  obtain ⟨c, _, hc⟩ := hmem
  by_cases hv : validLabelChar c = true
  · rw [if_pos hv] at hc
    rw [hc, validLabelChar_comma] at hv
    exact absurd hv (by decide)
  · rw [if_neg hv] at hc
    exact absurd hc (by decide)

theorem commaWrapped_data_cons (s : String) (rest : List String) :
    (commaWrapped (s :: rest)).data = ',' :: (s.data ++ (commaWrapped rest).data) := by
  rw [commaWrapped]
  simp [String.data_append]

theorem commaWrapped_data_head (ss : List String) :
    ∃ r, (commaWrapped ss).data = ',' :: r := by
  cases ss with
  | nil => exact ⟨[], rfl⟩
  | cons s rest => exact ⟨_, commaWrapped_data_cons s rest⟩

/-- Two comma-free words followed by a comma, one a prefix of the other, are
equal. -/
theorem eq_of_comma_prefix (q s r : List Char) (hq : ',' ∉ q) (hs : ',' ∉ s)
    (h : q ++ [','] <+: s ++ ',' :: r) : q = s := by
  induction q generalizing s with
  | nil =>
    cases s with
    | nil => rfl
    | cons c s' =>
      simp only [List.nil_append, List.cons_append, List.cons_prefix_cons] at h
      exact absurd (h.1 ▸ List.mem_cons_self _ _) hs
  | cons a q' ih =>
    cases s with
    | nil =>
      simp only [List.nil_append, List.cons_append, List.cons_prefix_cons] at h
      exact absurd (h.1 ▸ List.mem_cons_self _ _) hq
    | cons c s' =>
      simp only [List.cons_append, List.cons_prefix_cons] at h
      rw [h.1, ih s' (fun hm => hq (List.mem_cons_of_mem _ hm))
        (fun hm => hs (List.mem_cons_of_mem _ hm)) h.2]

/-- A word starting with a comma that occurs in `s ++ T`, with `s` comma-free,
occurs in `T`. -/
theorem infix_skip_comma_free (p s T : List Char) (hs : ',' ∉ s)
    (h : (',' :: p) <:+: s ++ T) : (',' :: p) <:+: T := by
  induction s with
  | nil => simpa using h
  | cons c s' ih =>
    rw [List.cons_append, List.infix_cons_iff] at h
    rcases h with hpre | hinf
    · rw [List.cons_prefix_cons] at hpre
      exact absurd (hpre.1 ▸ List.mem_cons_self _ _) hs
    · exact ih (fun hm => hs (List.mem_cons_of_mem _ hm)) hinf

theorem comma_word_infix_iff (ss : List String) (hss : ∀ s ∈ ss, ',' ∉ s.data)
    (q : List Char) (hq : ',' ∉ q) :
    (',' :: (q ++ [','])) <:+: (commaWrapped ss).data ↔ ∃ s ∈ ss, q = s.data := by
  induction ss with
  | nil =>
    constructor
    · intro h
      have hl := h.length_le
      simp [commaWrapped] at hl
    · rintro ⟨s, hs, _⟩
      exact absurd hs (List.not_mem_nil _)
  | cons s rest ih =>
    have hrest : ∀ s ∈ rest, ',' ∉ s.data := fun x hx => hss x (List.mem_cons_of_mem _ hx)
    have hs : ',' ∉ s.data := hss s (List.mem_cons_self _ _)
    obtain ⟨r, hr⟩ := commaWrapped_data_head rest
    rw [commaWrapped_data_cons]
    constructor
    · intro h
      rw [List.infix_cons_iff] at h
      rcases h with hpre | hinf
      · rw [List.cons_prefix_cons, hr] at hpre
        exact ⟨s, List.mem_cons_self _ _, eq_of_comma_prefix q s.data r hq hs hpre.2⟩
      · obtain ⟨x, hx, hqx⟩ := (ih hrest).mp (infix_skip_comma_free _ _ _ hs hinf)
        exact ⟨x, List.mem_cons_of_mem _ hx, hqx⟩
    · rintro ⟨x, hx, hqx⟩
      rcases List.mem_cons.mp hx with hxs | hxr
      · refine List.IsPrefix.isInfix ?_
        rw [List.cons_prefix_cons, hqx, hxs, hr]
        refine ⟨rfl, r, ?_⟩
        simp
      · have hin := (ih hrest).mpr ⟨x, hxr, hqx⟩
        refine List.IsInfix.trans hin (List.IsSuffix.isInfix ?_)
        exact ⟨',' :: s.data, by simp⟩

/-- C10: in every group emitted for a server with at least one tag, with `V`
the value of `__meta_sacloud_instances_tags`, a comma-free string `q` has
`"," + q + ","` occurring in `V` exactly when `q` is the sanitized form of one
of the server's tags. -/
theorem instances_tags_substring (servers : List Server) (target : Target) (config : Config)
    (groups : List Group) (e : Option Error)
    (h : buildMetadata servers target config = Except.ok (groups, e)) :
    List.Forall₂
      (fun s g => s.Tags ≠ [] →
        ∃ V, LabelSet.get g.Labels sacloudLabelTag = some V ∧
          ∀ q : String, ',' ∉ q.data →
            (occursIn ("," ++ q ++ ",") V ↔ ∃ t ∈ s.Tags, q = SanitizeLabelName t))
      (servers.filter (resolvable target)) groups := by
  refine buildMetadata_forall₂ servers target config groups e h _ ?_
  intro s _ A _ ht
  refine ⟨_, get_tag_of_ne_nil s target config A ht, ?_⟩
  intro q hq
  unfold occursIn
  have hpat : ("," ++ q ++ ",").data = ',' :: (q.data ++ [',']) := by
    simp [String.data_append]
  rw [hpat, comma_word_infix_iff _ _ q.data hq]
  · constructor
    · rintro ⟨x, hx, hqx⟩
      rw [List.mem_map] at hx
      obtain ⟨t, htm, htx⟩ := hx
      exact ⟨t, htm, by rw [htx]; exact String.ext hqx⟩
    · rintro ⟨t, htm, hqt⟩
      exact ⟨SanitizeLabelName t, List.mem_map_of_mem _ htm, by rw [hqt]⟩
  · intro x hx
    rw [List.mem_map] at hx
    obtain ⟨t, _, htx⟩ := hx
    rw [← htx]
    exact sanitize_no_comma t

/-- Witness of C10: for the server tagged `web2` and `myweb` the value is
`,web2,myweb,`, in which `,web2,` occurs and `,web,` does not. -/
theorem instances_tags_substring_witness :
    occursIn ",web2," ",web2,myweb," ∧ ¬ occursIn ",web," ",web2,myweb," ∧
    List.Forall₂
      (fun s g => s.Tags ≠ [] →
        ∃ V, LabelSet.get g.Labels sacloudLabelTag = some V ∧
          ∀ q : String, ',' ∉ q.data →
            (occursIn ("," ++ q ++ ",") V ↔ ∃ t ∈ s.Tags, q = SanitizeLabelName t))
      ([srvWeb2].filter (resolvable tgtWeb)) [groupWeb2] :=
  ⟨by decide, by decide,
    instances_tags_substring [srvWeb2] tgtWeb cfgA [groupWeb2] none (by rfl)⟩

/-! ## Lemmas on `generate` -/

theorem marshalLoop_eq (groups : List Group) (list : List MarshalledGroup) :
    marshalLoop groups list =
      Step.next (list ++ groups.map (fun g => (Group.MarshalYAML g).1)) := by
  induction groups generalizing list with
  | nil => simp [marshalLoop]
  | cons g rest ih => simp [marshalLoop, Group.MarshalYAML, ih]

theorem generateTarget_next (env : Env) (config : Config) (n : Nat) (target : Target)
    (list list' : List MarshalledGroup)
    (h : generateTarget env config n target list = Step.next list') :
    (∃ rawServers,
      listServers env n config.Zone (config.BaseTags ++ target.Tags) = Except.ok rawServers) ∧
    ∃ m, ruleGroups env config n target = some m ∧ list' = list ++ m := by
  unfold generateTarget at h
  simp only [List.nil_append] at h
  unfold ruleGroups
  cases hl : listServers env n config.Zone (config.BaseTags ++ target.Tags) with
  | error err => simp only [hl] at h; cases h
  | ok rawServers =>
    simp only [hl] at h ⊢
    refine ⟨⟨rawServers, rfl⟩, ?_⟩
    cases hb : buildMetadata (ignoreLoop target rawServers []) target config with
    | error msg => simp only [hb] at h; cases h
    | ok r =>
      obtain ⟨targetGroups, e⟩ := r
      simp only [hb] at h ⊢
      cases e with
      | some err => simp only at h; cases h
      | none =>
        simp only [marshalLoop_eq] at h
        cases h
        exact ⟨_, rfl, rfl⟩

theorem targetsLoop_next (env : Env) (config : Config) (n : Nat) (targets : List Target)
    (list list' : List MarshalledGroup)
    (h : targetsLoop env config n targets list = Step.next list') :
    allFetched env config n targets ∧
    ∃ m, mergedGroups env config n targets = some m ∧ list' = list ++ m := by
  induction targets generalizing n list with
  | nil =>
    simp only [targetsLoop] at h
    cases h
    refine ⟨?_, [], rfl, by simp⟩
    intro i target hi
    simp at hi
  | cons t rest ih =>
    unfold targetsLoop at h
    cases hg : generateTarget env config n t list with
    | ret err => rw [hg] at h; cases h
    | panicked msg => rw [hg] at h; cases h
    | next l1 =>
      rw [hg] at h
      obtain ⟨hfetch, m1, hm1, hl1⟩ := generateTarget_next env config n t list l1 hg
      obtain ⟨hall, m2, hm2, hl2⟩ := ih (n + 1) l1 h
      refine ⟨?_, m1 ++ m2, ?_, ?_⟩
      · intro i target hi
        cases i with
        | zero =>
          simp only [List.get?_cons_zero, Option.some.injEq] at hi
          rw [← hi]
          simpa using hfetch
        | succ j =>
          simp only [List.get?_cons_succ] at hi
          have := hall j target hi
          rw [show n + (j + 1) = n + 1 + j by omega]
          exact this
      · simp only [mergedGroups, hm1, hm2]
      · rw [hl2, hl1, List.append_assoc]

/-- C9 as stated fails: when the write fails, `generate` returns the error and
the file, emptied by `os.Create`, no longer has its previous content. -/
theorem generate_write_error_changes_file :
    generate envWriteFails cfgWeb (some "old")
      = (some "", Outcome.returned (some "no space left on device")) ∧
    ¬ ∀ (env : Env) (config : Config) (file : Option String) (err : Error),
        (generate env config file).2 = Outcome.returned (some err) →
        (generate env config file).1 = file := by
  have hrun : generate envWriteFails cfgWeb (some "old")
      = (some "", Outcome.returned (some "no space left on device")) := by rfl
  refine ⟨hrun, ?_⟩
  intro hall
  have h := hall envWriteFails cfgWeb (some "old") "no space left on device" (by rw [hrun])
  rw [hrun] at h
  exact absurd h (by decide)

/-- C9, amended: the content of the output file changes only when directory
creation, every rule's inventory fetch and `os.Create` succeeded (so an error
returned for one of these leaves the file as it was, as does a failed
`MkdirAll` in particular and a panic); and when `generate` returns `nil` the
file holds the serialisation of the merged group list of all rules. -/
theorem generate_file_update (env : Env) (config : Config) (file : Option String) :
    ((generate env config file).1 ≠ file →
      env.mkdirAll = none ∧ env.create = none ∧ allFetched env config 0 config.Targets ∧
      ∃ m, mergedGroups env config 0 config.Targets = some m) ∧
    (∀ err, env.mkdirAll = some err →
      generate env config file = (file, Outcome.returned (some err))) ∧
    (∀ msg, (generate env config file).2 = Outcome.panicked msg →
      (generate env config file).1 = file) ∧
    ((generate env config file).2 = Outcome.returned none →
      ∃ m, mergedGroups env config 0 config.Targets = some m ∧
        (generate env config file).1 = some (yamlBytes env m)) := by
  unfold generate
  cases hmk : env.mkdirAll with
  | some err0 =>
    refine ⟨fun hne => absurd rfl hne, ?_, fun _ _ => rfl, ?_⟩
    · intro err herr
      cases herr
      rfl
    · intro hnil
      simp only at hnil
      cases hnil
  | none =>
    cases hloop : targetsLoop env config 0 config.Targets [] with
    | ret err0 =>
      refine ⟨fun hne => absurd rfl hne, ?_, fun _ _ => rfl, ?_⟩
      · intro err herr
        cases herr
      · intro hnil
        simp only at hnil
        cases hnil
    | panicked msg0 =>
      refine ⟨fun hne => absurd rfl hne, ?_, fun _ _ => rfl, ?_⟩
      · intro err herr
        cases herr
      · intro hnil
        simp only at hnil
        cases hnil
    | next list =>
      obtain ⟨hall, m, hm, hlist⟩ := targetsLoop_next env config 0 config.Targets [] list hloop
      rw [List.nil_append] at hlist
      subst hlist
      cases hcr : env.create with
      | some err0 =>
        refine ⟨fun hne => absurd rfl hne, ?_, fun _ _ => rfl, ?_⟩
        · intro err herr
          cases herr
        · intro hnil
          simp only at hnil
          cases hnil
      | none =>
        simp only
        cases hw : env.write (yamlBytes env list) with
        | some r =>
          obtain ⟨k, err0⟩ := r
          refine ⟨fun _ => ⟨trivial, trivial, hall, list, hm⟩, ?_, ?_, ?_⟩
          · intro err herr
            cases herr
          · intro msg hp
            simp only at hp
            cases hp
          · intro hnil
            simp only at hnil
            cases hnil
        | none =>
          cases hcl : env.close with
          | some err0 =>
            refine ⟨fun _ => ⟨trivial, trivial, hall, list, hm⟩, ?_, ?_, ?_⟩
            · intro err herr
              cases herr
            · intro msg hp
              simp only at hp
              cases hp
            · intro hnil
              simp only at hnil
              cases hnil
          | none =>
            refine ⟨fun _ => ⟨trivial, trivial, hall, list, hm⟩, ?_, ?_, ?_⟩
            · intro err herr
              cases herr
            · intro msg hp
              simp only at hp
              cases hp
            · intro _
              exact ⟨list, hm, rfl⟩

/-- Witness of C9, amended: a successful cycle replaces the file by the
serialised groups; a failed fetch, a failed `MkdirAll` and a panic leave it. -/
theorem generate_file_update_witness :
    generate envOk cfgWeb (some "old") = (some "10.0.0.1:9100\n", Outcome.returned none) ∧
    generate envFetchFails cfgWeb (some "old")
      = (some "old", Outcome.returned (some "api unavailable")) ∧
    (envOk.mkdirAll = none ∧ envOk.create = none ∧ allFetched envOk cfgWeb 0 cfgWeb.Targets ∧
      ∃ m, mergedGroups envOk cfgWeb 0 cfgWeb.Targets = some m) ∧
    generate envMkdirFails cfgWeb (some "old")
      = (some "old", Outcome.returned (some "permission denied")) ∧
    (generate envOk cfgNeg (some "old")).1 = some "old" ∧
    ∃ m, mergedGroups envOk cfgWeb 0 cfgWeb.Targets = some m ∧
      (generate envOk cfgWeb (some "old")).1 = some (yamlBytes envOk m) :=
  ⟨by rfl, by rfl,
   (generate_file_update envOk cfgWeb (some "old")).1 (by decide),
   (generate_file_update envMkdirFails cfgWeb (some "old")).2.1 "permission denied" (by rfl),
   (generate_file_update envOk cfgNeg (some "old")).2.2.1 "index out of range" (by rfl),
   (generate_file_update envOk cfgWeb (some "old")).2.2.2 (by rfl)⟩

end SacloudSD
